import Mathlib

/-!
Shallow embedding of the system bus of the melon-gb emulator (src/src/bus.rs).
Bytes and addresses are natural numbers; u8 and u16 truncation is written
explicitly where the source performs a cast or relies on wraparound.
The five peripherals (cartridge, joypad, APU, PPU, timer) are not part of the
bus module; they are modelled from the contracts stated in the spec, section 6.2.
-/

/-- Pointwise update of a function, used to model writes into byte arrays. -/
def upd (f : Nat → Nat) (i v : Nat) : Nat → Nat :=
  fun x => if x = i then v else f x

/-- Model tag, from src/src/cpu (GBModel). -/
inductive GBModel where
  | DMG
  | CGB
deriving DecidableEq

/-- Interrupt kinds, from src/src/cpu (enum Interrupt). -/
inductive Interrupt where
  | VBlank
  | Stat
  | Timer
  | Serial
  | Joypad
deriving DecidableEq

/-- HDMA transfer mode, from src/src/bus.rs (enum HDMAMode). -/
inductive HDMAMode where
  | GDMA
  | HDMA
  | None
deriving DecidableEq

/-- Modelled from the spec: the cartridge contract (read_rom, write_rom,
read_ram, write_ram, read_bank, write_bank).  MBC dispatch internals are out
of scope; a ROM-space write mutates only cartridge-internal MBC state, which
we record as a log. -/
structure Cartridge where
  rom : Nat → Nat
  ram : Nat → Nat
  bank : Nat
  mbcWrites : List (Nat × Nat)

def Cartridge.read_rom (c : Cartridge) (a : Nat) : Nat := c.rom a

def Cartridge.write_rom (c : Cartridge) (a v : Nat) : Cartridge :=
  { c with mbcWrites := (a, v) :: c.mbcWrites }

def Cartridge.read_ram (c : Cartridge) (a : Nat) : Nat := c.ram a

def Cartridge.write_ram (c : Cartridge) (a v : Nat) : Cartridge :=
  { c with ram := upd c.ram a v }

def Cartridge.read_bank (c : Cartridge) : Nat := c.bank

def Cartridge.write_bank (c : Cartridge) (v : Nat) : Cartridge :=
  { c with bank := v }

/-- Modelled from the spec: the joypad contract (read_joypad, write_joypad,
update, interrupt_triggered).  Internals are out of scope. -/
structure Joypad where
  p1 : Nat
  status : Nat
  intLine : Bool

def Joypad.read_joypad (j : Joypad) : Nat := j.p1

def Joypad.write_joypad (j : Joypad) (v : Nat) : Joypad := { j with p1 := v }

def Joypad.update (j : Joypad) (s : Nat) : Joypad := { j with status := s }

def Joypad.interrupt_triggered (j : Joypad) : Bool := j.intLine

def Joypad.new : Joypad := { p1 := 0, status := 0, intLine := false }

/-- Modelled from the spec: the APU contract (read_io, write_io, step,
frame_sequencer_step).  Channel synthesis is out of scope; we keep the io
register file, a count of elapsed cycles, and a count of frame-sequencer
advances so that frame-sequencer clocking is observable. -/
structure Apu where
  io : Nat → Nat
  fs_steps : Nat
  cycles : Nat

def Apu.read_io (a : Apu) (addr : Nat) : Nat := a.io addr

def Apu.write_io (a : Apu) (addr v : Nat) : Apu := { a with io := upd a.io addr v }

def Apu.step (a : Apu) (t : Nat) : Apu := { a with cycles := a.cycles + t }

def Apu.frame_sequencer_step (a : Apu) : Apu := { a with fs_steps := a.fs_steps + 1 }

def Apu.new (_m : GBModel) : Apu := { io := fun _ => 0, fs_steps := 0, cycles := 0 }

/-- Modelled from the spec: the PPU contract (read and write for vram, oam and
io registers, step, entered_vblank, entered_hblank, stat_triggered, write_dma).
The pixel pipeline is out of scope; vram and oam are keyed by raw bus address,
step advances only an internal dot counter, and the three edge flags are
abstract state the bus queries. -/
structure Ppu where
  vram : Nat → Nat
  oam : Nat → Nat
  io : Nat → Nat
  dots : Nat
  hblank : Bool
  vblank : Bool
  stat : Bool

def Ppu.read_vram (p : Ppu) (a : Nat) : Nat := p.vram a

def Ppu.write_vram (p : Ppu) (a v : Nat) : Ppu := { p with vram := upd p.vram a v }

def Ppu.read_oam (p : Ppu) (a : Nat) : Nat := p.oam a

def Ppu.write_oam (p : Ppu) (a v : Nat) : Ppu := { p with oam := upd p.oam a v }

def Ppu.read_io (p : Ppu) (a : Nat) : Nat := p.io a

def Ppu.write_io (p : Ppu) (a v : Nat) : Ppu := { p with io := upd p.io a v }

def Ppu.write_dma (p : Ppu) (v : Nat) : Ppu := { p with io := upd p.io 0xFF46 v }

def Ppu.step (p : Ppu) (t : Nat) : Ppu := { p with dots := p.dots + t }

def Ppu.entered_vblank (p : Ppu) : Bool := p.vblank

def Ppu.entered_hblank (p : Ppu) : Bool := p.hblank

def Ppu.stat_triggered (p : Ppu) : Bool := p.stat

def Ppu.new (_m : GBModel) : Ppu :=
  { vram := fun _ => 0, oam := fun _ => 0, io := fun _ => 0,
    dots := 0, hblank := false, vblank := false, stat := false }

/-- Modelled from the spec: the timer contract (read_io, write_io,
step returning the overflow flag, read_div, reset_div).  DIV is the upper
byte of a 16-bit counter that advances one per T-cycle; TIMA overflow
generation is out of scope and is kept as an abstract flag. -/
structure Timer where
  counter : Nat
  ovf : Bool
  io : Nat → Nat

def Timer.read_div (t : Timer) : Nat := t.counter / 256 % 256

def Timer.reset_div (t : Timer) : Timer := { t with counter := 0 }

def Timer.step (t : Timer) (n : Nat) : Timer × Bool :=
  ({ t with counter := (t.counter + n) % 65536 }, t.ovf)

def Timer.read_io (t : Timer) (a : Nat) : Nat :=
  if a = 0xFF04 then t.read_div else t.io a

def Timer.write_io (t : Timer) (a v : Nat) : Timer := { t with io := upd t.io a v }

def Timer.new : Timer := { counter := 0, ovf := false, io := fun _ => 0 }

/-- The bus aggregate, from src/src/bus.rs (struct Bus).  The serial output
string is modelled as the list of bytes pushed to it. -/
structure Bus where
  model : GBModel
  double_speed : Bool
  serial_output : List Nat
  cartridge : Cartridge
  joypad : Joypad
  apu : Apu
  ppu : Ppu
  wram : Nat → Nat → Nat
  timer : Timer
  hram : Nat → Nat
  interrupt_enable : Nat
  interrupt_flag : Nat
  dma_start : Nat
  dma_ticks : Nat
  key1 : Nat
  hdma1 : Nat
  hdma2 : Nat
  hdma3 : Nat
  hdma4 : Nat
  hdma5 : Nat
  rp : Nat
  svbk : Nat
  hdma_bytes : Nat
  hdma_mode : HDMAMode
  hdma_length : Nat

/-- Bus::new. -/
def Bus.new (cartridge : Cartridge) (model : GBModel) : Bus :=
  { model := model
    double_speed := false
    serial_output := []
    cartridge := cartridge
    joypad := Joypad.new
    apu := Apu.new model
    ppu := Ppu.new model
    timer := Timer.new
    wram := fun _ _ => 0
    hram := fun _ => 0
    interrupt_enable := 0
    interrupt_flag := 0xE0
    dma_start := 0
    dma_ticks := 160
    key1 := 0
    hdma1 := 0
    hdma2 := 0
    hdma3 := 0
    hdma4 := 0
    hdma5 := 0xFF
    rp := 0
    svbk := 0
    hdma_bytes := 0
    hdma_mode := HDMAMode.None
    hdma_length := 0 }

/-- Bus::is_cgb. -/
def Bus.is_cgb (b : Bus) : Bool :=
  match b.model with
  | GBModel.CGB => true
  | GBModel.DMG => false

/-- The WRAM bank selected for 0xD000 to 0xDFFF on CGB, as computed inline in
Bus::read_wram and Bus::write_wram: (svbk as usize and 7) plus (svbk == 0). -/
def wram_bank_cgb (svbk : Nat) : Nat :=
  (svbk &&& 0x7) + (if svbk = 0 then 1 else 0)

/-- Bus::read_wram. -/
def Bus.read_wram (b : Bus) (addr : Nat) : Nat :=
  if addr < 0xC000 + 0x1000 then
    b.wram 0 (addr - 0xC000)
  else if b.is_cgb = true then
    b.wram (wram_bank_cgb b.svbk) (addr - 0xC000 - 0x1000)
  else
    b.wram 1 (addr - 0xC000 - 0x1000)

/-- Pointwise update of the two-dimensional WRAM array. -/
def wramUpd (w : Nat → Nat → Nat) (bk off v : Nat) : Nat → Nat → Nat :=
  fun i j => if i = bk ∧ j = off then v else w i j

/-- Bus::write_wram. -/
def Bus.write_wram (b : Bus) (addr v : Nat) : Bus :=
  if addr < 0xC000 + 0x1000 then
    { b with wram := wramUpd b.wram 0 (addr - 0xC000) v }
  else if b.is_cgb = true then
    { b with wram := wramUpd b.wram (wram_bank_cgb b.svbk) (addr - 0xC000 - 0x1000) v }
  else
    { b with wram := wramUpd b.wram 1 (addr - 0xC000 - 0x1000) v }

/-- Bus::read_hdma5. -/
def Bus.read_hdma5 (b : Bus) : Nat :=
  (if b.hdma_mode = HDMAMode.HDMA then 0x00 else 0x80) ||| b.hdma_length

/-- Bus::read_byte.  The guarded match arms of the source are rendered as an
if chain in source order; a guard that fails falls through to the default
0xFF exactly as the source match does. -/
def Bus.read_byte (b : Bus) (addr : Nat) : Nat :=
  if addr ≤ 0x7FFF then b.cartridge.read_rom addr
  else if addr ≤ 0x9FFF then b.ppu.read_vram addr
  else if addr ≤ 0xBFFF then b.cartridge.read_ram addr
  else if addr ≤ 0xDFFF then b.read_wram addr
  else if addr ≤ 0xFDFF then b.read_wram (addr - 0x2000)
  else if addr ≤ 0xFE9F then b.ppu.read_oam addr
  else if addr ≤ 0xFEFF then 0xFF
  else if addr = 0xFF00 then b.joypad.read_joypad
  else if 0xFF04 ≤ addr ∧ addr ≤ 0xFF07 then b.timer.read_io addr
  else if addr = 0xFF0F then b.interrupt_flag
  else if 0xFF10 ≤ addr ∧ addr ≤ 0xFF26 then b.apu.read_io addr
  else if 0xFF30 ≤ addr ∧ addr ≤ 0xFF3F then b.apu.read_io addr
  else if 0xFF40 ≤ addr ∧ addr ≤ 0xFF4B then b.ppu.read_io addr
  else if addr = 0xFF50 then b.cartridge.read_bank
  else if b.is_cgb = true ∧ addr = 0xFF4D then b.key1
  else if b.is_cgb = true ∧ addr = 0xFF4F then b.ppu.read_io addr
  else if b.is_cgb = true ∧ addr = 0xFF55 then b.read_hdma5
  else if b.is_cgb = true ∧ addr = 0xFF56 then b.rp
  else if b.is_cgb = true ∧ 0xFF68 ≤ addr ∧ addr ≤ 0xFF6C then b.ppu.read_io addr
  else if b.is_cgb = true ∧ addr = 0xFF70 then b.svbk
  else if b.is_cgb = true ∧ addr = 0xFF76 then b.apu.read_io addr
  else if b.is_cgb = true ∧ addr = 0xFF77 then b.apu.read_io addr
  else if 0xFF80 ≤ addr ∧ addr ≤ 0xFFFE then b.hram (addr - 0xFF80)
  else if addr = 0xFFFF then b.interrupt_enable
  else 0xFF

/-- One iteration of the while loop in Bus::step_oam_dma: transfer one byte
from dma_start or dma_ticks to OAM and advance the tick counter. -/
def Bus.oam_dma_tick (b : Bus) : Bus :=
  { b with
    ppu := b.ppu.write_oam (0xFE00 ||| b.dma_ticks) (b.read_byte (b.dma_start ||| b.dma_ticks))
    dma_ticks := b.dma_ticks + 1 }

/-- Bus::step_oam_dma: while m_cycles is positive and dma_ticks is below 160,
transfer one byte per M-cycle. -/
def Bus.step_oam_dma : Bus → Nat → Bus
  | b, 0 => b
  | b, m + 1 =>
    if b.dma_ticks < 160 then Bus.step_oam_dma b.oam_dma_tick m else b

/-- Bus::write_dma: latch the page into the PPU, reset the source base and the
tick counter, then perform one immediate DMA tick. -/
def Bus.write_dma (b : Bus) (byte : Nat) : Bus :=
  Bus.step_oam_dma
    { b with ppu := b.ppu.write_dma byte, dma_start := byte <<< 8, dma_ticks := 0 } 1

/-- Bus::write_hdma5: store the byte, latch the length field and reset the
byte counter, then select the next HDMA mode. -/
def Bus.write_hdma5 (b : Bus) (byte : Nat) : Bus :=
  let b1 := { b with hdma5 := byte, hdma_length := byte &&& 0x7F, hdma_bytes := 0 }
  if byte &&& 0x80 = 0 then
    if b1.hdma_mode = HDMAMode.HDMA then { b1 with hdma_mode := HDMAMode.None }
    else { b1 with hdma_mode := HDMAMode.GDMA }
  else { b1 with hdma_mode := HDMAMode.HDMA }

/-- Bus::write_byte, same if-chain rendering as read_byte.  Note that the
0xFF46 arm precedes the 0xFF40 to 0xFF4B PPU arm, as in the source. -/
def Bus.write_byte (b : Bus) (addr v : Nat) : Bus :=
  if addr ≤ 0x7FFF then { b with cartridge := b.cartridge.write_rom addr v }
  else if addr ≤ 0x9FFF then { b with ppu := b.ppu.write_vram addr v }
  else if addr ≤ 0xBFFF then { b with cartridge := b.cartridge.write_ram addr v }
  else if addr ≤ 0xDFFF then b.write_wram addr v
  else if addr ≤ 0xFDFF then b.write_wram (addr - 0x2000) v
  else if addr ≤ 0xFE9F then { b with ppu := b.ppu.write_oam addr v }
  else if addr ≤ 0xFEFF then b
  else if addr = 0xFF00 then { b with joypad := b.joypad.write_joypad v }
  else if addr = 0xFF01 then { b with serial_output := b.serial_output ++ [v] }
  else if 0xFF04 ≤ addr ∧ addr ≤ 0xFF07 then { b with timer := b.timer.write_io addr v }
  else if addr = 0xFF0F then { b with interrupt_flag := 0xE0 ||| v }
  else if 0xFF10 ≤ addr ∧ addr ≤ 0xFF26 then { b with apu := b.apu.write_io addr v }
  else if 0xFF30 ≤ addr ∧ addr ≤ 0xFF3F then { b with apu := b.apu.write_io addr v }
  else if addr = 0xFF46 then b.write_dma v
  else if 0xFF40 ≤ addr ∧ addr ≤ 0xFF4B then { b with ppu := b.ppu.write_io addr v }
  else if addr = 0xFF50 then { b with cartridge := b.cartridge.write_bank v }
  else if b.is_cgb = true ∧ addr = 0xFF4D then { b with key1 := v &&& 0x7F }
  else if b.is_cgb = true ∧ addr = 0xFF4F then { b with ppu := b.ppu.write_io addr v }
  else if b.is_cgb = true ∧ addr = 0xFF51 then { b with hdma1 := v }
  else if b.is_cgb = true ∧ addr = 0xFF52 then { b with hdma2 := v }
  else if b.is_cgb = true ∧ addr = 0xFF53 then { b with hdma3 := v }
  else if b.is_cgb = true ∧ addr = 0xFF54 then { b with hdma4 := v }
  else if b.is_cgb = true ∧ addr = 0xFF55 then b.write_hdma5 v
  else if b.is_cgb = true ∧ addr = 0xFF56 then { b with rp := v &&& 0xFD }
  else if b.is_cgb = true ∧ 0xFF68 ≤ addr ∧ addr ≤ 0xFF6C then { b with ppu := b.ppu.write_io addr v }
  else if b.is_cgb = true ∧ addr = 0xFF70 then { b with svbk := v }
  else if 0xFF80 ≤ addr ∧ addr ≤ 0xFFFE then { b with hram := upd b.hram (addr - 0xFF80) v }
  else if addr = 0xFFFF then { b with interrupt_enable := v }
  else b

/-- Bus::hdma_transfer_blocks. -/
def Bus.hdma_transfer_blocks (b : Bus) : Nat :=
  (b.hdma5 &&& 0x7F) + 1

/-- Bus::hdma_source_start. -/
def Bus.hdma_source_start (b : Bus) : Nat :=
  ((b.hdma1 <<< 8) ||| b.hdma2) &&& 0xFFF0

/-- Bus::hdma_dest_start. -/
def Bus.hdma_dest_start (b : Bus) : Nat :=
  0x8000 ||| (((b.hdma3 <<< 8) ||| b.hdma4) &&& 0x1FF0)

/-- The for loop inside Bus::transfer_block_to_vram: copy bytes with index
i from 0 to n-1, ascending, from source src plus i (truncated to u16 for the
bus read, as in the source) to vram at dst plus i. -/
def Bus.copy_vram_bytes (src dst : Nat) : Nat → Bus → Bus
  | 0, b => b
  | n + 1, b =>
    let b1 := Bus.copy_vram_bytes src dst n b
    { b1 with ppu := b1.ppu.write_vram (dst + n) (b1.read_byte ((src + n) % 65536)) }

/-- Bus::transfer_block_to_vram: copy one 16-byte block at the current offset
and advance hdma_bytes; the transfer costs 32 T-cycles. -/
def Bus.transfer_block_to_vram (b : Bus) : Bus × Nat :=
  let b1 := Bus.copy_vram_bytes (b.hdma_source_start + b.hdma_bytes)
      (b.hdma_dest_start + b.hdma_bytes) 16 b
  ({ b1 with hdma_bytes := b1.hdma_bytes + 16 }, 32)

/-- The for loop in Bus::step_vram_gdma: run the given number of block
transfers, accumulating their T-cycle cost. -/
def Bus.gdma_loop : Nat → Bus × Nat → Bus × Nat
  | 0, acc => acc
  | k + 1, acc =>
    let r := acc.1.transfer_block_to_vram
    Bus.gdma_loop k (r.1, acc.2 + r.2)

/-- Bus::step_vram_gdma. -/
def Bus.step_vram_gdma (b : Bus) : Bus × Nat :=
  let r := Bus.gdma_loop b.hdma_transfer_blocks (b, 0)
  ({ r.1 with hdma_length := 0x7F, hdma_mode := HDMAMode.None }, r.2)

/-- Bus::step_vram_hdma.  The source decrement of hdma_length is on a u8; it
is rendered with the 8-bit wraparound made explicit. -/
def Bus.step_vram_hdma (b : Bus) : Bus × Nat :=
  if b.ppu.entered_hblank = true then
    let r := b.transfer_block_to_vram
    if r.1.hdma_bytes = r.1.hdma_transfer_blocks * 16 then
      ({ r.1 with hdma_mode := HDMAMode.None, hdma_length := 0x7F }, r.2)
    else
      ({ r.1 with hdma_length := (r.1.hdma_length + 255) % 256 }, r.2)
  else (b, 0)

/-- Bus::step_vram_dma. -/
def Bus.step_vram_dma (b : Bus) : Bus × Nat :=
  if b.is_cgb = true then
    match b.hdma_mode with
    | HDMAMode.GDMA => b.step_vram_gdma
    | HDMAMode.HDMA => b.step_vram_hdma
    | HDMAMode.None => (b, 0)
  else (b, 0)

/-- Bus::request_interrupt. -/
def Bus.request_interrupt (b : Bus) (i : Interrupt) : Bus :=
  match i with
  | Interrupt.VBlank => { b with interrupt_flag := b.interrupt_flag ||| (1 <<< 0) }
  | Interrupt.Stat => { b with interrupt_flag := b.interrupt_flag ||| (1 <<< 1) }
  | Interrupt.Timer => { b with interrupt_flag := b.interrupt_flag ||| (1 <<< 2) }
  | Interrupt.Serial => { b with interrupt_flag := b.interrupt_flag ||| (1 <<< 3) }
  | Interrupt.Joypad => { b with interrupt_flag := b.interrupt_flag ||| (1 <<< 4) }

/-- Bus::partial_step: advance the OAM DMA, step the timer (requesting the
timer interrupt on overflow), and advance the APU frame sequencer on a
falling edge of DIV bit 4 (single speed) or bit 5 (double speed). -/
def Bus.partial_step (b : Bus) (t_cycles : Nat) : Bus :=
  let b1 := b.step_oam_dma (t_cycles / 4)
  let old_div := b1.timer.read_div
  let sr := b1.timer.step t_cycles
  let b2 := { b1 with timer := sr.1 }
  let b3 := if sr.2 = true then b2.request_interrupt Interrupt.Timer else b2
  if b3.double_speed = true then
    if old_div &&& 0x20 ≠ 0 ∧ b3.timer.read_div &&& 0x20 = 0 then
      { b3 with apu := b3.apu.frame_sequencer_step }
    else b3
  else
    if old_div &&& 0x10 ≠ 0 ∧ b3.timer.read_div &&& 0x10 = 0 then
      { b3 with apu := b3.apu.frame_sequencer_step }
    else b3

/-- Bus::step: halve the budget in double speed, drain HDMA adding its cost,
step the APU and PPU, then collect peripheral interrupt edges. -/
def Bus.step (b : Bus) (t_cycles : Nat) : Bus :=
  let t0 := if b.double_speed = true then t_cycles / 2 else t_cycles
  let r := b.step_vram_dma
  let t1 := t0 + r.2
  let b1 := { r.1 with apu := r.1.apu.step t1 }
  let b2 := { b1 with ppu := b1.ppu.step t1 }
  let b3 := if b2.ppu.entered_vblank = true then b2.request_interrupt Interrupt.VBlank else b2
  let b4 := if b3.ppu.stat_triggered = true then b3.request_interrupt Interrupt.Stat else b3
  if b4.joypad.interrupt_triggered = true then b4.request_interrupt Interrupt.Joypad else b4

/-- Bus::speed_switch.  The source line
key1 = not (key1 and 0x80) or (key1 and 0x7F)
complements the full isolated u8 mask; the u8 complement is rendered as xor
with 0xFF. -/
def Bus.speed_switch (b : Bus) : Bus × Bool :=
  if b.is_cgb = true ∧ b.key1 &&& 1 ≠ 0 then
    let k1 := b.key1 &&& 0xFE
    let k2 := (0xFF ^^^ (k1 &&& 0x80)) ||| (k1 &&& 0x7F)
    ({ b with key1 := k2, double_speed := !b.double_speed, timer := b.timer.reset_div }, true)
  else (b, false)

/-- The CPU-facing bus operations named by the invariant claims: reads,
writes, interrupt requests, partial ticks and post-instruction ticks. -/
inductive BusOp where
  | readOp (a : Nat)
  | writeOp (a v : Nat)
  | reqInt (i : Interrupt)
  | partialTick (t : Nat)
  | postTick (t : Nat)

/-- Apply one bus operation to the state.  read_byte takes the bus immutably
in the source, so the read operation leaves the state unchanged. -/
def Bus.apply_op (b : Bus) : BusOp → Bus
  | BusOp.readOp _ => b
  | BusOp.writeOp a v => b.write_byte a v
  | BusOp.reqInt i => b.request_interrupt i
  | BusOp.partialTick t => b.partial_step t
  | BusOp.postTick t => b.step t

/-- Apply a sequence of bus operations from left to right. -/
def Bus.apply_ops (b : Bus) : List BusOp → Bus
  | [] => b
  | op :: rest => (b.apply_op op).apply_ops rest

/-- A plain test cartridge whose ROM holds the low byte of the address plus
one, used to build concrete bus states in witnesses. -/
def testCart : Cartridge :=
  { rom := fun a => (a + 1) % 256, ram := fun _ => 0, bank := 0, mbcWrites := [] }

/-- The CGB-only register addresses named by the spec: KEY1, VBK, HDMA1 to
HDMA5 and RP, the palette registers, and SVBK. -/
def cgb_only_reg (a : Nat) : Prop :=
  a = 0xFF4D ∨ a = 0xFF4F ∨ (0xFF51 ≤ a ∧ a ≤ 0xFF56) ∨
    (0xFF68 ≤ a ∧ a ≤ 0xFF6C) ∨ a = 0xFF70

/-- Concrete CGB bus with an armed HBlank-paced HDMA transfer of five blocks,
of which two have already been drained at HBlank, used to exhibit the
cancellation behaviour: the PPU hblank flag is raised, HDMA5 is written with
0x84, and step_vram_dma runs twice. -/
def busC3pre : Bus :=
  let b0 := Bus.new testCart GBModel.CGB
  let b1 := { b0 with ppu := { b0.ppu with hblank := true } }
  let b2 := b1.write_byte 0xFF55 0x84
  ((b2.step_vram_dma).1.step_vram_dma).1

/-- Concrete CGB bus with HDMA source 0x0100 and destination 0x8000 latched,
used for the general-purpose DMA scenario. -/
def busC2 : Bus :=
  (Bus.new testCart GBModel.CGB).write_byte 0xFF51 0x01

/-! ## Helper lemmas -/

/-- Bitwise helper: or-ing extra bits into a value keeps the 0xE0 bits set. -/
theorem and_E0_or_keep (a x : Nat) (h : a &&& 0xE0 = 0xE0) :
    (a ||| x) &&& 0xE0 = 0xE0 := by
  apply Nat.eq_of_testBit_eq
  intro i
  have h2 := congrArg (fun n => Nat.testBit n i) h
  simp only [Nat.testBit_and, Nat.testBit_or] at h2 ⊢
  cases hb : Nat.testBit 0xE0 i with
  | false => simp [hb]
  | true =>
    simp only [hb, Bool.and_true] at h2 ⊢
    simp [h2]

/-- Bitwise helper: a value stored to IF as 0xE0 or v has the 0xE0 bits set. -/
theorem write_if_E0 (v : Nat) : (0xE0 ||| v) &&& 0xE0 = 0xE0 :=
  and_E0_or_keep 0xE0 v (by decide)

/-- Or-ing a byte below 256 into a multiple of 256 is plain addition. -/
theorem lor256 (a i : Nat) (h : i < 256) : (256 * a) ||| i = 256 * a + i := by
  have h2 : i < 2 ^ 8 := by norm_num; exact h
  have h3 := Nat.mul_add_lt_is_or h2 a
  norm_num at h3
  exact h3.symm

/-- Or after a left shift by 8 of the page is plain addition. -/
theorem shl8_lor (N i : Nat) (h : i < 256) : (N <<< 8) ||| i = 256 * N + i := by
  rw [Nat.shiftLeft_eq]
  norm_num
  rw [Nat.mul_comm]
  exact lor256 N i h

/-- Or-ing an index below 256 into the OAM base address is plain addition. -/
theorem lorFE00 (i : Nat) (h : i < 256) : (0xFE00 : Nat) ||| i = 0xFE00 + i := by
  have h3 := lor256 0xFE i h
  norm_num at h3
  exact h3

/-! ## Claim theorems, with their counterexamples and witnesses -/

/-- Claim C1 (code bug evaluation): on a CGB bus, after writing 0x01 to
0xFF4D, speed_switch returns true, flips the double-speed flag and resets
DIV, but leaves KEY1 equal to 0xFF rather than 0x80: the armed bit is still
set and bits 1 to 6 are set, because the source complements the isolated
bit-7 mask instead of masking the complement. -/
theorem c1_speed_switch_eval :
    (((Bus.new testCart GBModel.CGB).write_byte 0xFF4D 0x01).speed_switch).2 = true ∧
    (((Bus.new testCart GBModel.CGB).write_byte 0xFF4D 0x01).speed_switch).1.key1 = 0xFF ∧
    ¬ (((Bus.new testCart GBModel.CGB).write_byte 0xFF4D 0x01).speed_switch).1.key1 = 0x80 ∧
    (((Bus.new testCart GBModel.CGB).write_byte 0xFF4D 0x01).speed_switch).1.key1 &&& 0x01 = 0x01 ∧
    (((Bus.new testCart GBModel.CGB).write_byte 0xFF4D 0x01).speed_switch).1.double_speed = true ∧
    (((Bus.new testCart GBModel.CGB).write_byte 0xFF4D 0x01).speed_switch).1.timer.read_div = 0 := by
  decide

/-- Claim C10: a read operation leaves the complete bus state unchanged, and
two consecutive reads of the same address return the same value.  In the
source read_byte takes the bus by shared reference, which the embedding
mirrors by making the read operation return the state unchanged. -/
theorem c10_read_byte_pure (b : Bus) (a : Nat) :
    b.apply_op (BusOp.readOp a) = b ∧
    (b.apply_op (BusOp.readOp a)).read_byte a = b.read_byte a :=
  ⟨rfl, rfl⟩

theorem read_byte_rom (b : Bus) (a : Nat) (h : a ≤ 0x7FFF) :
    b.read_byte a = b.cartridge.rom a := by
  simp only [Bus.read_byte, Cartridge.read_rom]
  rw [if_pos h]

set_option maxHeartbeats 1000000 in
theorem read_byte_oam (b : Bus) (a : Nat) (h1 : 0xFE00 ≤ a) (h2 : a ≤ 0xFE9F) :
    b.read_byte a = b.ppu.oam a := by
  simp only [Bus.read_byte, Ppu.read_oam]
  rw [if_neg (by omega), if_neg (by omega), if_neg (by omega), if_neg (by omega),
    if_neg (by omega), if_pos h2]

theorem read_byte_FF0F (b : Bus) : b.read_byte 0xFF0F = b.interrupt_flag := rfl

set_option maxHeartbeats 1000000 in
theorem read_byte_oam_ticks (s : Bus) (A v d a : Nat) (h : a < 0xFE00 ∨ 0xFE9F < a) :
    Bus.read_byte { s with ppu := s.ppu.write_oam A v, dma_ticks := d } a
      = s.read_byte a := by
  simp only [Bus.read_byte]
  by_cases h1 : a ≤ 0x7FFF
  · rw [if_pos h1, if_pos h1] <;> try rfl
  · rw [if_neg h1, if_neg h1]
    by_cases h2 : a ≤ 0x9FFF
    · rw [if_pos h2, if_pos h2] <;> try rfl
    · rw [if_neg h2, if_neg h2]
      by_cases h3 : a ≤ 0xBFFF
      · rw [if_pos h3, if_pos h3] <;> try rfl
      · rw [if_neg h3, if_neg h3]
        by_cases h4 : a ≤ 0xDFFF
        · rw [if_pos h4, if_pos h4] <;> try rfl
        · rw [if_neg h4, if_neg h4]
          by_cases h5 : a ≤ 0xFDFF
          · rw [if_pos h5, if_pos h5] <;> try rfl
          · rw [if_neg h5, if_neg h5, if_neg (by omega : ¬ a ≤ 0xFE9F),
              if_neg (by omega : ¬ a ≤ 0xFE9F)] <;> try rfl

set_option maxHeartbeats 1000000 in
/-- Claim C6: echo RAM. Reads of 0xE000 to 0xFDFF mirror the address minus
0x2000, and writes to the echo region produce the identical bus state as
writes to the mirrored address. -/
theorem c6_echo_ram (b : Bus) (a v : Nat) (h1 : 0xE000 ≤ a) (h2 : a ≤ 0xFDFF) :
    b.read_byte a = b.read_byte (a - 0x2000) ∧
      b.write_byte a v = b.write_byte (a - 0x2000) v := by
  constructor
  · simp only [Bus.read_byte]
    rw [if_neg (by omega : ¬ a ≤ 0x7FFF), if_neg (by omega : ¬ a ≤ 0x9FFF),
      if_neg (by omega : ¬ a ≤ 0xBFFF), if_neg (by omega : ¬ a ≤ 0xDFFF),
      if_pos h2,
      if_neg (by omega : ¬ a - 0x2000 ≤ 0x7FFF), if_neg (by omega : ¬ a - 0x2000 ≤ 0x9FFF),
      if_neg (by omega : ¬ a - 0x2000 ≤ 0xBFFF), if_pos (by omega : a - 0x2000 ≤ 0xDFFF)]
  · simp only [Bus.write_byte]
    rw [if_neg (by omega : ¬ a ≤ 0x7FFF), if_neg (by omega : ¬ a ≤ 0x9FFF),
      if_neg (by omega : ¬ a ≤ 0xBFFF), if_neg (by omega : ¬ a ≤ 0xDFFF),
      if_pos h2,
      if_neg (by omega : ¬ a - 0x2000 ≤ 0x7FFF), if_neg (by omega : ¬ a - 0x2000 ≤ 0x9FFF),
      if_neg (by omega : ¬ a - 0x2000 ≤ 0xBFFF), if_pos (by omega : a - 0x2000 ≤ 0xDFFF)]

/-- Claim C6 witness: echo equivalence at address 0xE123 on a concrete bus. -/
theorem c6_echo_ram_witness :
    (Bus.new testCart GBModel.DMG).read_byte 0xE123
        = (Bus.new testCart GBModel.DMG).read_byte (0xE123 - 0x2000) ∧
      (Bus.new testCart GBModel.DMG).write_byte 0xE123 0x42
        = (Bus.new testCart GBModel.DMG).write_byte (0xE123 - 0x2000) 0x42 :=
  c6_echo_ram (Bus.new testCart GBModel.DMG) 0xE123 0x42 (by decide) (by decide)

set_option maxHeartbeats 1000000 in
/-- On a DMG bus, reading any address in 0xFF4C to 0xFF7F other than 0xFF50
returns 0xFF, since every arm in that span is CGB-guarded or absent. -/
theorem dmg_io_read_FF (b : Bus) (a : Nat) (hdmg : b.model = GBModel.DMG)
    (h1 : 0xFF4C ≤ a) (h2 : a ≤ 0xFF7F) (h50 : a ≠ 0xFF50) :
    b.read_byte a = 0xFF := by
  have hcf : b.is_cgb = false := by simp [Bus.is_cgb, hdmg]
  have gg : ∀ P : Prop, ¬ (b.is_cgb = true ∧ P) := by
    intro P hc
    rw [hcf] at hc
    exact absurd hc.1 (by decide)
  simp only [Bus.read_byte]
  rw [if_neg (by omega : ¬ a ≤ 0x7FFF), if_neg (by omega : ¬ a ≤ 0x9FFF),
    if_neg (by omega : ¬ a ≤ 0xBFFF), if_neg (by omega : ¬ a ≤ 0xDFFF),
    if_neg (by omega : ¬ a ≤ 0xFDFF), if_neg (by omega : ¬ a ≤ 0xFE9F),
    if_neg (by omega : ¬ a ≤ 0xFEFF), if_neg (by omega : ¬ a = 0xFF00),
    if_neg (by omega : ¬ (0xFF04 ≤ a ∧ a ≤ 0xFF07)), if_neg (by omega : ¬ a = 0xFF0F),
    if_neg (by omega : ¬ (0xFF10 ≤ a ∧ a ≤ 0xFF26)),
    if_neg (by omega : ¬ (0xFF30 ≤ a ∧ a ≤ 0xFF3F)),
    if_neg (by omega : ¬ (0xFF40 ≤ a ∧ a ≤ 0xFF4B)), if_neg h50,
    if_neg (gg _), if_neg (gg _), if_neg (gg _), if_neg (gg _), if_neg (gg _),
    if_neg (gg _), if_neg (gg _), if_neg (gg _),
    if_neg (by omega : ¬ (0xFF80 ≤ a ∧ a ≤ 0xFFFE)), if_neg (by omega : ¬ a = 0xFFFF)]

set_option maxHeartbeats 1000000 in
/-- On a DMG bus, writing any address in 0xFF4C to 0xFF7F other than 0xFF50
leaves the bus unchanged, since every arm in that span is CGB-guarded or
absent. -/
theorem dmg_io_write_id (b : Bus) (a v : Nat) (hdmg : b.model = GBModel.DMG)
    (h1 : 0xFF4C ≤ a) (h2 : a ≤ 0xFF7F) (h50 : a ≠ 0xFF50) :
    b.write_byte a v = b := by
  have hcf : b.is_cgb = false := by simp [Bus.is_cgb, hdmg]
  have gg : ∀ P : Prop, ¬ (b.is_cgb = true ∧ P) := by
    intro P hc
    rw [hcf] at hc
    exact absurd hc.1 (by decide)
  simp only [Bus.write_byte]
  rw [if_neg (by omega : ¬ a ≤ 0x7FFF), if_neg (by omega : ¬ a ≤ 0x9FFF),
    if_neg (by omega : ¬ a ≤ 0xBFFF), if_neg (by omega : ¬ a ≤ 0xDFFF),
    if_neg (by omega : ¬ a ≤ 0xFDFF), if_neg (by omega : ¬ a ≤ 0xFE9F),
    if_neg (by omega : ¬ a ≤ 0xFEFF), if_neg (by omega : ¬ a = 0xFF00),
    if_neg (by omega : ¬ a = 0xFF01),
    if_neg (by omega : ¬ (0xFF04 ≤ a ∧ a ≤ 0xFF07)), if_neg (by omega : ¬ a = 0xFF0F),
    if_neg (by omega : ¬ (0xFF10 ≤ a ∧ a ≤ 0xFF26)),
    if_neg (by omega : ¬ (0xFF30 ≤ a ∧ a ≤ 0xFF3F)),
    if_neg (by omega : ¬ a = 0xFF46),
    if_neg (by omega : ¬ (0xFF40 ≤ a ∧ a ≤ 0xFF4B)), if_neg h50,
    if_neg (gg _), if_neg (gg _), if_neg (gg _), if_neg (gg _), if_neg (gg _),
    if_neg (gg _), if_neg (gg _), if_neg (gg _), if_neg (gg _), if_neg (gg _),
    if_neg (by omega : ¬ (0xFF80 ≤ a ∧ a ≤ 0xFFFE)), if_neg (by omega : ¬ a = 0xFFFF)]

/-- Claim C8: on a DMG bus, every CGB-only register address reads 0xFF and
writing any byte there leaves the entire bus state unchanged. -/
theorem c8_dmg_gating (b : Bus) (a v : Nat) (hdmg : b.model = GBModel.DMG)
    (hreg : cgb_only_reg a) :
    b.read_byte a = 0xFF ∧ b.write_byte a v = b := by
  unfold cgb_only_reg at hreg
  exact ⟨dmg_io_read_FF b a hdmg (by omega) (by omega) (by omega),
    dmg_io_write_id b a v hdmg (by omega) (by omega) (by omega)⟩

/-- Claim C8 witness: KEY1 on a concrete DMG bus reads 0xFF and a write to it
is a no-op. -/
theorem c8_dmg_gating_witness :
    (Bus.new testCart GBModel.DMG).read_byte 0xFF4D = 0xFF ∧
      (Bus.new testCart GBModel.DMG).write_byte 0xFF4D 0x12
        = Bus.new testCart GBModel.DMG :=
  c8_dmg_gating (Bus.new testCart GBModel.DMG) 0xFF4D 0x12 rfl (Or.inl rfl)

/-- Claim C5 counterexample: with SVBK holding 8 on a CGB bus the selected
bank is 0, not a bank in 1 to 7: a write to 0xD000 lands in bank 0 and is
visible at 0xC000, because the source adds one only when the whole SVBK byte
is zero, not when its low three bits are zero. -/
theorem c5_wram_banking_cex :
    ((((Bus.new testCart GBModel.CGB).write_byte 0xFF70 8).write_byte
          0xD000 0x42).read_byte 0xC000 = 0x42) ∧
      ((((Bus.new testCart GBModel.CGB).write_byte 0xFF70 8).write_byte
          0xD000 0x42).read_byte 0xD000 = 0x42) ∧
      wram_bank_cgb 8 = 0 ∧ ¬ 1 ≤ wram_bank_cgb 8 := by
  decide

set_option maxHeartbeats 1000000 in
/-- Claim C5 (amended): accesses to 0xD000 to 0xDFFF on CGB target WRAM bank
(SVBK and 7) plus one exactly when the full SVBK byte is zero; the selected
bank lies in 1 to 7 when SVBK is zero or its low three bits are nonzero, but
a nonzero SVBK that is a multiple of 8 selects bank 0.  On DMG the region
always targets bank 1, and 0xC000 to 0xCFFF always targets bank 0. -/
theorem c5_wram_banking (b : Bus) (a v : Nat) :
    (b.model = GBModel.CGB → 0xD000 ≤ a → a ≤ 0xDFFF →
      b.read_byte a = b.wram (wram_bank_cgb b.svbk) (a - 0xD000) ∧
        b.write_byte a v
          = { b with wram := wramUpd b.wram (wram_bank_cgb b.svbk) (a - 0xD000) v }) ∧
    (b.model = GBModel.DMG → 0xD000 ≤ a → a ≤ 0xDFFF →
      b.read_byte a = b.wram 1 (a - 0xD000) ∧
        b.write_byte a v = { b with wram := wramUpd b.wram 1 (a - 0xD000) v }) ∧
    (0xC000 ≤ a → a ≤ 0xCFFF →
      b.read_byte a = b.wram 0 (a - 0xC000) ∧
        b.write_byte a v = { b with wram := wramUpd b.wram 0 (a - 0xC000) v }) ∧
    (b.svbk = 0 → wram_bank_cgb b.svbk = 1) ∧
    (b.svbk &&& 7 ≠ 0 →
      wram_bank_cgb b.svbk = b.svbk &&& 7 ∧
        1 ≤ wram_bank_cgb b.svbk ∧ wram_bank_cgb b.svbk ≤ 7) := by
  refine ⟨?_, ?_, ?_, ?_, ?_⟩
  · intro hm hl hr
    have hc : b.is_cgb = true := by simp [Bus.is_cgb, hm]
    constructor
    · simp only [Bus.read_byte, Bus.read_wram]
      rw [if_neg (by omega : ¬ a ≤ 0x7FFF), if_neg (by omega : ¬ a ≤ 0x9FFF),
        if_neg (by omega : ¬ a ≤ 0xBFFF), if_pos hr,
        if_neg (by omega : ¬ a < 0xC000 + 0x1000), if_pos hc,
        (by omega : a - 0xC000 - 0x1000 = a - 0xD000)]
    · simp only [Bus.write_byte, Bus.write_wram]
      rw [if_neg (by omega : ¬ a ≤ 0x7FFF), if_neg (by omega : ¬ a ≤ 0x9FFF),
        if_neg (by omega : ¬ a ≤ 0xBFFF), if_pos hr,
        if_neg (by omega : ¬ a < 0xC000 + 0x1000), if_pos hc,
        (by omega : a - 0xC000 - 0x1000 = a - 0xD000)]
  · intro hm hl hr
    have hc : b.is_cgb = false := by simp [Bus.is_cgb, hm]
    constructor
    · simp only [Bus.read_byte, Bus.read_wram]
      rw [if_neg (by omega : ¬ a ≤ 0x7FFF), if_neg (by omega : ¬ a ≤ 0x9FFF),
        if_neg (by omega : ¬ a ≤ 0xBFFF), if_pos hr,
        if_neg (by omega : ¬ a < 0xC000 + 0x1000), hc,
        if_neg (by decide : ¬ false = true),
        (by omega : a - 0xC000 - 0x1000 = a - 0xD000)]
    · simp only [Bus.write_byte, Bus.write_wram]
      rw [if_neg (by omega : ¬ a ≤ 0x7FFF), if_neg (by omega : ¬ a ≤ 0x9FFF),
        if_neg (by omega : ¬ a ≤ 0xBFFF), if_pos hr,
        if_neg (by omega : ¬ a < 0xC000 + 0x1000), hc,
        if_neg (by decide : ¬ false = true),
        (by omega : a - 0xC000 - 0x1000 = a - 0xD000)]
  · intro hl hr
    constructor
    · simp only [Bus.read_byte, Bus.read_wram]
      rw [if_neg (by omega : ¬ a ≤ 0x7FFF), if_neg (by omega : ¬ a ≤ 0x9FFF),
        if_neg (by omega : ¬ a ≤ 0xBFFF), if_pos (by omega : a ≤ 0xDFFF),
        if_pos (by omega : a < 0xC000 + 0x1000)]
    · simp only [Bus.write_byte, Bus.write_wram]
      rw [if_neg (by omega : ¬ a ≤ 0x7FFF), if_neg (by omega : ¬ a ≤ 0x9FFF),
        if_neg (by omega : ¬ a ≤ 0xBFFF), if_pos (by omega : a ≤ 0xDFFF),
        if_pos (by omega : a < 0xC000 + 0x1000)]
  · intro h0
    simp [wram_bank_cgb, h0]
  · intro hne
    have hle : b.svbk &&& 7 ≤ 7 := Nat.and_le_right
    have h0 : ¬ b.svbk = 0 := by
      intro h0
      rw [h0] at hne
      exact hne (by decide)
    unfold wram_bank_cgb
    rw [if_neg h0]
    omega

/-- Claim C5 witness: the amended banking statement instantiated on a fresh
CGB bus at address 0xD005. -/
theorem c5_wram_banking_witness :
    (Bus.new testCart GBModel.CGB).read_byte 0xD005
        = (Bus.new testCart GBModel.CGB).wram
            (wram_bank_cgb (Bus.new testCart GBModel.CGB).svbk) (0xD005 - 0xD000) ∧
      (Bus.new testCart GBModel.CGB).write_byte 0xD005 7
        = { Bus.new testCart GBModel.CGB with
            wram := wramUpd (Bus.new testCart GBModel.CGB).wram
              (wram_bank_cgb (Bus.new testCart GBModel.CGB).svbk) (0xD005 - 0xD000) 7 } :=
  (c5_wram_banking (Bus.new testCart GBModel.CGB) 0xD005 7).1 rfl (by decide) (by decide)

set_option maxHeartbeats 1000000 in
/-- On a CGB bus, reading 0xFF55 returns the HDMA5 status byte. -/
theorem read_byte_FF55 (b : Bus) (hc : b.is_cgb = true) :
    b.read_byte 0xFF55 = b.read_hdma5 := by
  unfold Bus.read_byte
  rw [if_neg (by decide), if_neg (by decide), if_neg (by decide), if_neg (by decide),
    if_neg (by decide), if_neg (by decide), if_neg (by decide), if_neg (by decide),
    if_neg (by decide), if_neg (by decide), if_neg (by decide), if_neg (by decide),
    if_neg (by decide), if_neg (by decide),
    if_neg (fun hx => absurd hx.2 (by decide)),
    if_neg (fun hx => absurd hx.2 (by decide)),
    if_pos (And.intro hc rfl)]

set_option maxHeartbeats 1000000 in
/-- On a CGB bus, writing 0xFF55 dispatches to write_hdma5. -/
theorem write_byte_FF55 (b : Bus) (v : Nat) (hc : b.is_cgb = true) :
    b.write_byte 0xFF55 v = b.write_hdma5 v := by
  unfold Bus.write_byte
  rw [if_neg (by decide), if_neg (by decide), if_neg (by decide), if_neg (by decide),
    if_neg (by decide), if_neg (by decide), if_neg (by decide), if_neg (by decide),
    if_neg (by decide), if_neg (by decide), if_neg (by decide), if_neg (by decide),
    if_neg (by decide), if_neg (by decide), if_neg (by decide), if_neg (by decide),
    if_neg (fun hx => absurd hx.2 (by decide)),
    if_neg (fun hx => absurd hx.2 (by decide)),
    if_neg (fun hx => absurd hx.2 (by decide)),
    if_neg (fun hx => absurd hx.2 (by decide)),
    if_neg (fun hx => absurd hx.2 (by decide)),
    if_neg (fun hx => absurd hx.2 (by decide)),
    if_pos (And.intro hc rfl)]

/-- On any bus, writing a byte with bit 7 clear to HDMA5 while no HBlank
transfer is active yields the state with mode GeneralPurpose and the latched
fields. -/
theorem write_hdma5_gdma (b : Bus) (v : Nat) (hm : ¬ b.hdma_mode = HDMAMode.HDMA)
    (hb : v &&& 0x80 = 0) :
    b.write_hdma5 v
      = { b with
          hdma5 := v, hdma_length := v &&& 0x7F,
          hdma_bytes := 0, hdma_mode := HDMAMode.GDMA } := by
  unfold Bus.write_hdma5
  have hm1 : ¬ ({ b with
      hdma5 := v, hdma_length := v &&& 0x7F,
      hdma_bytes := 0 } : Bus).hdma_mode = HDMAMode.HDMA := hm
  rw [if_pos hb, if_neg hm1]

/-- On any bus, writing a byte with bit 7 clear to HDMA5 while an HBlank
transfer is active yields the state with mode Idle and the latched fields. -/
theorem write_hdma5_cancel (b : Bus) (v : Nat) (hm : b.hdma_mode = HDMAMode.HDMA)
    (hb : v &&& 0x80 = 0) :
    b.write_hdma5 v
      = { b with
          hdma5 := v, hdma_length := v &&& 0x7F,
          hdma_bytes := 0, hdma_mode := HDMAMode.None } := by
  unfold Bus.write_hdma5
  have hm1 : ({ b with
      hdma5 := v, hdma_length := v &&& 0x7F,
      hdma_bytes := 0 } : Bus).hdma_mode = HDMAMode.HDMA := hm
  rw [if_pos hb, if_pos hm1]

/-- Claim C3 counterexample: after a five-block HBlank transfer has drained
two blocks, the remaining count is 2, yet writing 0x00 to 0xFF55 makes a
subsequent read return 0x80, whose low seven bits are 0 and not the count 2
that was current at cancellation: the write overwrites the length field. -/
theorem c3_hdma_cancel_cex :
    busC3pre.hdma_length = 2 ∧ busC3pre.hdma_mode = HDMAMode.HDMA ∧
      (busC3pre.write_byte 0xFF55 0x00).hdma_mode = HDMAMode.None ∧
      (busC3pre.write_byte 0xFF55 0x00).read_byte 0xFF55 = 0x80 ∧
      ¬ (0x80 : Nat) &&& 0x7F = 2 := by
  decide

/-- Claim C3 (amended): on CGB, a write with bit 7 clear to 0xFF55 while an
HBlank-paced transfer is active cancels it with no bytes copied (the PPU is
untouched), and a subsequent read of 0xFF55 has the top bit set with its low
seven bits equal to the low seven bits of the byte just written, since the
write overwrites the remaining-count field. -/
theorem c3_hdma_cancel (b : Bus) (v : Nat) (hc : b.is_cgb = true)
    (hm : b.hdma_mode = HDMAMode.HDMA) (hb : v &&& 0x80 = 0) :
    (b.write_byte 0xFF55 v).hdma_mode = HDMAMode.None ∧
      (b.write_byte 0xFF55 v).ppu = b.ppu ∧
      (b.write_byte 0xFF55 v).read_byte 0xFF55 = 0x80 ||| (v &&& 0x7F) := by
  rw [write_byte_FF55 b v hc, write_hdma5_cancel b v hm hb]
  have hc2 : ({ b with
      hdma5 := v, hdma_length := v &&& 0x7F,
      hdma_bytes := 0, hdma_mode := HDMAMode.None } : Bus).is_cgb = true := hc
  refine ⟨rfl, rfl, ?_⟩
  rw [read_byte_FF55 _ hc2]
  rfl

/-- Claim C3 witness: the amended cancellation statement instantiated on the
concrete partially drained HBlank transfer. -/
theorem c3_hdma_cancel_witness :
    (busC3pre.write_byte 0xFF55 0).hdma_mode = HDMAMode.None ∧
      (busC3pre.write_byte 0xFF55 0).ppu = busC3pre.ppu ∧
      (busC3pre.write_byte 0xFF55 0).read_byte 0xFF55 = 0x80 ||| (0 &&& 0x7F) :=
  c3_hdma_cancel busC3pre 0 (by decide) (by decide) (by decide)

/-- The byte-copy loop touches only the PPU: all cartridge and HDMA control
state, and the interrupt flag, are preserved. -/
theorem copy_vram_preserve (src dst : Nat) : ∀ (n : Nat) (b : Bus),
    (Bus.copy_vram_bytes src dst n b).cartridge = b.cartridge ∧
      (Bus.copy_vram_bytes src dst n b).hdma_bytes = b.hdma_bytes ∧
      (Bus.copy_vram_bytes src dst n b).hdma_source_start = b.hdma_source_start ∧
      (Bus.copy_vram_bytes src dst n b).hdma_dest_start = b.hdma_dest_start ∧
      (Bus.copy_vram_bytes src dst n b).hdma5 = b.hdma5 ∧
      (Bus.copy_vram_bytes src dst n b).hdma_mode = b.hdma_mode ∧
      (Bus.copy_vram_bytes src dst n b).hdma_length = b.hdma_length ∧
      (Bus.copy_vram_bytes src dst n b).interrupt_flag = b.interrupt_flag ∧
      (Bus.copy_vram_bytes src dst n b).ppu.oam = b.ppu.oam := by
  intro n
  induction n with
  | zero => intro b; exact ⟨rfl, rfl, rfl, rfl, rfl, rfl, rfl, rfl, rfl⟩
  | succ n ih =>
    intro b
    exact ⟨(ih b).1, (ih b).2.1, (ih b).2.2.1, (ih b).2.2.2.1, (ih b).2.2.2.2.1,
      (ih b).2.2.2.2.2.1, (ih b).2.2.2.2.2.2.1, (ih b).2.2.2.2.2.2.2.1,
      (ih b).2.2.2.2.2.2.2.2⟩

/-- The byte-copy loop with a ROM source writes the source bytes, in order,
to the destination, and leaves every other VRAM address unchanged. -/
theorem copy_vram_values (src dst : Nat) : ∀ (n : Nat) (b : Bus),
    src + n ≤ 0x8000 →
    ((∀ i, i < n →
        (Bus.copy_vram_bytes src dst n b).ppu.vram (dst + i) = b.cartridge.rom (src + i)) ∧
      (∀ x, (x < dst ∨ dst + n ≤ x) →
        (Bus.copy_vram_bytes src dst n b).ppu.vram x = b.ppu.vram x)) := by
  intro n
  induction n with
  | zero =>
    intro b _
    exact ⟨fun i hi => absurd hi (by omega), fun x _ => rfl⟩
  | succ n ih =>
    intro b hle
    have hle2 : src + n ≤ 0x8000 := by omega
    have hmod : (src + n) % 65536 = src + n := Nat.mod_eq_of_lt (by omega)
    have hread : (Bus.copy_vram_bytes src dst n b).read_byte ((src + n) % 65536)
        = b.cartridge.rom (src + n) := by
      rw [hmod, read_byte_rom _ _ (by omega)]
      rw [(copy_vram_preserve src dst n b).1]
    constructor
    · intro i hi
      by_cases hin : i = n
      · subst hin
        show upd (Bus.copy_vram_bytes src dst i b).ppu.vram (dst + i) _ (dst + i)
            = b.cartridge.rom (src + i)
        rw [upd, if_pos rfl, hread]
      · have hi2 : i < n := by omega
        show upd (Bus.copy_vram_bytes src dst n b).ppu.vram (dst + n) _ (dst + i)
            = b.cartridge.rom (src + i)
        rw [upd, if_neg (by omega : ¬ dst + i = dst + n)]
        exact (ih b hle2).1 i hi2
    · intro x hx
      show upd (Bus.copy_vram_bytes src dst n b).ppu.vram (dst + n) _ x = b.ppu.vram x
      rw [upd, if_neg (by omega : ¬ x = dst + n)]
      exact (ih b hle2).2 x (by omega)

/-- One block transfer with a ROM source: advances hdma_bytes by 16, copies
the 16 source bytes at the current offset into VRAM, preserves everything
else, and costs 32 T-cycles. -/
theorem transfer_block_spec (b : Bus)
    (h : b.hdma_source_start + b.hdma_bytes + 16 ≤ 0x8000) :
    (b.transfer_block_to_vram).2 = 32 ∧
      (b.transfer_block_to_vram).1.cartridge = b.cartridge ∧
      (b.transfer_block_to_vram).1.hdma_bytes = b.hdma_bytes + 16 ∧
      (b.transfer_block_to_vram).1.hdma_source_start = b.hdma_source_start ∧
      (b.transfer_block_to_vram).1.hdma_dest_start = b.hdma_dest_start ∧
      (b.transfer_block_to_vram).1.hdma5 = b.hdma5 ∧
      (b.transfer_block_to_vram).1.hdma_mode = b.hdma_mode ∧
      (b.transfer_block_to_vram).1.hdma_length = b.hdma_length ∧
      (b.transfer_block_to_vram).1.interrupt_flag = b.interrupt_flag ∧
      (b.transfer_block_to_vram).1.ppu.oam = b.ppu.oam ∧
      (∀ i, i < 16 →
        (b.transfer_block_to_vram).1.ppu.vram (b.hdma_dest_start + b.hdma_bytes + i)
          = b.cartridge.rom (b.hdma_source_start + b.hdma_bytes + i)) ∧
      (∀ x, (x < b.hdma_dest_start + b.hdma_bytes ∨
          b.hdma_dest_start + b.hdma_bytes + 16 ≤ x) →
        (b.transfer_block_to_vram).1.ppu.vram x = b.ppu.vram x) := by
  have hp := copy_vram_preserve (b.hdma_source_start + b.hdma_bytes)
    (b.hdma_dest_start + b.hdma_bytes) 16 b
  have hv := copy_vram_values (b.hdma_source_start + b.hdma_bytes)
    (b.hdma_dest_start + b.hdma_bytes) 16 b (by omega)
  refine ⟨rfl, hp.1, ?_, hp.2.2.1, hp.2.2.2.1, hp.2.2.2.2.1, hp.2.2.2.2.2.1,
    hp.2.2.2.2.2.2.1, hp.2.2.2.2.2.2.2.1, hp.2.2.2.2.2.2.2.2, ?_, ?_⟩
  · show (Bus.copy_vram_bytes _ _ 16 b).hdma_bytes + 16 = b.hdma_bytes + 16
    rw [hp.2.1]
  · intro i hi
    have := hv.1 i hi
    rw [(by omega : b.hdma_dest_start + b.hdma_bytes + i
        = b.hdma_dest_start + b.hdma_bytes + i)]
    exact this
  · intro x hx
    exact hv.2 x (by omega)

/-- The general-purpose DMA loop over k blocks with a ROM source: advances
hdma_bytes by 16 per block, copies 16 times k source bytes in order, leaves
the rest of VRAM and all control state unchanged, and accumulates 32 T-cycles
per block. -/
theorem gdma_loop_spec : ∀ (k : Nat) (b : Bus) (t : Nat),
    b.hdma_source_start + b.hdma_bytes + 16 * k ≤ 0x8000 →
    (Bus.gdma_loop k (b, t)).2 = t + 32 * k ∧
      (Bus.gdma_loop k (b, t)).1.cartridge = b.cartridge ∧
      (Bus.gdma_loop k (b, t)).1.hdma_bytes = b.hdma_bytes + 16 * k ∧
      (Bus.gdma_loop k (b, t)).1.hdma_source_start = b.hdma_source_start ∧
      (Bus.gdma_loop k (b, t)).1.hdma_dest_start = b.hdma_dest_start ∧
      (Bus.gdma_loop k (b, t)).1.hdma5 = b.hdma5 ∧
      (Bus.gdma_loop k (b, t)).1.interrupt_flag = b.interrupt_flag ∧
      (Bus.gdma_loop k (b, t)).1.ppu.oam = b.ppu.oam ∧
      (∀ i, i < 16 * k →
        (Bus.gdma_loop k (b, t)).1.ppu.vram (b.hdma_dest_start + b.hdma_bytes + i)
          = b.cartridge.rom (b.hdma_source_start + b.hdma_bytes + i)) ∧
      (∀ x, (x < b.hdma_dest_start + b.hdma_bytes ∨
          b.hdma_dest_start + b.hdma_bytes + 16 * k ≤ x) →
        (Bus.gdma_loop k (b, t)).1.ppu.vram x = b.ppu.vram x) := by
  intro k
  induction k with
  | zero =>
    intro b t _
    refine ⟨by show t = t + 32 * 0; omega, rfl,
      by show b.hdma_bytes = b.hdma_bytes + 16 * 0; omega, rfl, rfl, rfl, rfl, rfl,
      fun i hi => absurd hi (by omega), fun x _ => rfl⟩
  | succ k ih =>
    intro b t hle
    have hb1 := transfer_block_spec b (by omega)
    have hle2 : (b.transfer_block_to_vram).1.hdma_source_start
        + (b.transfer_block_to_vram).1.hdma_bytes + 16 * k ≤ 0x8000 := by
      rw [hb1.2.2.1, hb1.2.2.2.1]
      omega
    have ihr := ih (b.transfer_block_to_vram).1 (t + (b.transfer_block_to_vram).2) hle2
    have hstep : Bus.gdma_loop (k + 1) (b, t)
        = Bus.gdma_loop k ((b.transfer_block_to_vram).1, t + (b.transfer_block_to_vram).2) :=
      rfl
    rw [hstep]
    obtain ⟨q1, q2, q3, q4, q5, q6, q7, q8, q9, q10⟩ := ihr
    obtain ⟨p1, p2, p3, p4, p5, p6, p7, p8, p9, p10, p11, p12⟩ := hb1
    refine ⟨by omega, by rw [q2, p2], by omega, by rw [q4, p4], by rw [q5, p5],
      by rw [q6, p6], by rw [q7, p9], by rw [q8, p10], ?_, ?_⟩
    · intro i hi
      by_cases hfirst : i < 16
      · have hout := q10 (b.hdma_dest_start + b.hdma_bytes + i)
          (by rw [p5, p3]; omega)
        rw [hout, p11 i hfirst]
      · have hmid := q9 (i - 16) (by omega)
        rw [p4, p5, p3, p2] at hmid
        rw [(by omega : b.hdma_dest_start + (b.hdma_bytes + 16) + (i - 16)
            = b.hdma_dest_start + b.hdma_bytes + i)] at hmid
        rw [(by omega : b.hdma_source_start + (b.hdma_bytes + 16) + (i - 16)
            = b.hdma_source_start + b.hdma_bytes + i)] at hmid
        exact hmid
    · intro x hx
      have hout := q10 x (by rw [p5, p3]; omega)
      rw [hout, p12 x (by omega)]

/-- Bus::step_vram_gdma with a ROM source: copies every block immediately,
sets the mode to Idle and the length field to 0x7F, and returns 32 T-cycles
per block. -/
theorem step_vram_gdma_spec (b : Bus)
    (h : b.hdma_source_start + b.hdma_bytes + 16 * b.hdma_transfer_blocks ≤ 0x8000) :
    (b.step_vram_gdma).2 = 32 * b.hdma_transfer_blocks ∧
      (b.step_vram_gdma).1.hdma_mode = HDMAMode.None ∧
      (b.step_vram_gdma).1.hdma_length = 0x7F ∧
      (b.step_vram_gdma).1.interrupt_flag = b.interrupt_flag ∧
      (b.step_vram_gdma).1.cartridge = b.cartridge ∧
      (b.step_vram_gdma).1.ppu.oam = b.ppu.oam ∧
      (∀ i, i < 16 * b.hdma_transfer_blocks →
        (b.step_vram_gdma).1.ppu.vram (b.hdma_dest_start + b.hdma_bytes + i)
          = b.cartridge.rom (b.hdma_source_start + b.hdma_bytes + i)) := by
  obtain ⟨q1, q2, q3, q4, q5, q6, q7, q8, q9, q10⟩ :=
    gdma_loop_spec b.hdma_transfer_blocks b 0 h
  refine ⟨?_, rfl, rfl, q7, q2, q8, q9⟩
  show (Bus.gdma_loop b.hdma_transfer_blocks (b, 0)).2 = 32 * b.hdma_transfer_blocks
  rw [q1]
  omega

/-- Claim C2 counterexample: on a CGB bus with HDMA source 0x0100 and
destination 0x8000, immediately after writing 0x01 to 0xFF55 (before the next
post-instruction tick) a read of 0xFF55 yields 0x81, not 0xFF, and the first
destination VRAM byte still differs from the first source ROM byte: the copy
has not happened yet. -/
theorem c2_gdma_immediate_cex :
    (busC2.write_byte 0xFF55 0x01).read_byte 0xFF55 = 0x81 ∧
      ¬ (busC2.write_byte 0xFF55 0x01).read_byte 0xFF55 = 0xFF ∧
      busC2.hdma_source_start = 0x0100 ∧ busC2.hdma_dest_start = 0x8000 ∧
      busC2.cartridge.rom 0x0100 = 0x01 ∧
      (busC2.write_byte 0xFF55 0x01).ppu.vram 0x8000 = 0 ∧
      ¬ (busC2.write_byte 0xFF55 0x01).ppu.vram 0x8000 = busC2.cartridge.rom 0x0100 := by
  decide

/-- Claim C2 (amended): on CGB, writing a byte with bit 7 clear to 0xFF55
while not in HBlank-paced mode latches a GeneralPurpose transfer; the copy is
performed when the HDMA engine is next drained (step_vram_dma, run by the
post-instruction tick), at which point the full (low seven bits plus one)
times 16 bytes have been copied from the source to the VRAM destination, the
mode is Idle, the remaining field holds 0x7F so 0xFF55 reads 0xFF, and the
transfer took 32 T-cycles per block. -/
theorem c2_gdma_on_step (b : Bus) (v : Nat) (hc : b.is_cgb = true)
    (hm : ¬ b.hdma_mode = HDMAMode.HDMA) (hbit : v &&& 0x80 = 0)
    (hrom : b.hdma_source_start + ((v &&& 0x7F) + 1) * 16 ≤ 0x8000) :
    ((b.write_byte 0xFF55 v).step_vram_dma).1.hdma_mode = HDMAMode.None ∧
      ((b.write_byte 0xFF55 v).step_vram_dma).1.hdma_length = 0x7F ∧
      ((b.write_byte 0xFF55 v).step_vram_dma).1.read_hdma5 = 0xFF ∧
      ((b.write_byte 0xFF55 v).step_vram_dma).2 = ((v &&& 0x7F) + 1) * 32 ∧
      (∀ i, i < ((v &&& 0x7F) + 1) * 16 →
        ((b.write_byte 0xFF55 v).step_vram_dma).1.ppu.vram (b.hdma_dest_start + i)
          = b.cartridge.rom (b.hdma_source_start + i)) := by
  rw [write_byte_FF55 b v hc, write_hdma5_gdma b v hm hbit]
  have hc2 : ({ b with
      hdma5 := v, hdma_length := v &&& 0x7F,
      hdma_bytes := 0, hdma_mode := HDMAMode.GDMA } : Bus).is_cgb = true := hc
  have hstep : ({ b with
      hdma5 := v, hdma_length := v &&& 0x7F,
      hdma_bytes := 0, hdma_mode := HDMAMode.GDMA } : Bus).step_vram_dma
      = ({ b with
          hdma5 := v, hdma_length := v &&& 0x7F,
          hdma_bytes := 0, hdma_mode := HDMAMode.GDMA } : Bus).step_vram_gdma := by
    unfold Bus.step_vram_dma
    rw [if_pos hc2]
  rw [hstep]
  have hblocks : ({ b with
      hdma5 := v, hdma_length := v &&& 0x7F,
      hdma_bytes := 0, hdma_mode := HDMAMode.GDMA } : Bus).hdma_transfer_blocks
      = (v &&& 0x7F) + 1 := rfl
  obtain ⟨g1, g2, g3, g4, g5, g6, g7⟩ := step_vram_gdma_spec
    { b with
      hdma5 := v, hdma_length := v &&& 0x7F,
      hdma_bytes := 0, hdma_mode := HDMAMode.GDMA }
    (by
      show b.hdma_source_start + 0 + 16 * ((v &&& 0x7F) + 1) ≤ 0x8000
      omega)
  refine ⟨g2, g3, ?_, ?_, ?_⟩
  · unfold Bus.read_hdma5
    rw [if_neg (by rw [g2]; decide), g3]
    decide
  · rw [g1, hblocks]
    omega
  · intro i hi
    have hvr := g7 i (by rw [hblocks]; omega)
    have e1 : ({ b with
        hdma5 := v, hdma_length := v &&& 0x7F,
        hdma_bytes := 0, hdma_mode := HDMAMode.GDMA } : Bus).hdma_dest_start
        + ({ b with
            hdma5 := v, hdma_length := v &&& 0x7F,
            hdma_bytes := 0, hdma_mode := HDMAMode.GDMA } : Bus).hdma_bytes + i
        = b.hdma_dest_start + i := by
      show b.hdma_dest_start + 0 + i = b.hdma_dest_start + i
      omega
    have e2 : ({ b with
        hdma5 := v, hdma_length := v &&& 0x7F,
        hdma_bytes := 0, hdma_mode := HDMAMode.GDMA } : Bus).hdma_source_start
        + ({ b with
            hdma5 := v, hdma_length := v &&& 0x7F,
            hdma_bytes := 0, hdma_mode := HDMAMode.GDMA } : Bus).hdma_bytes + i
        = b.hdma_source_start + i := by
      show b.hdma_source_start + 0 + i = b.hdma_source_start + i
      omega
    rw [e1, e2] at hvr
    exact hvr

/-- Claim C2 witness: the amended statement instantiated on the concrete bus
with source 0x0100 and destination 0x8000, written with 0x01. -/
theorem c2_gdma_on_step_witness :
    ((busC2.write_byte 0xFF55 0x01).step_vram_dma).1.read_hdma5 = 0xFF ∧
      ((busC2.write_byte 0xFF55 0x01).step_vram_dma).1.ppu.vram
          (busC2.hdma_dest_start + 5)
        = busC2.cartridge.rom (busC2.hdma_source_start + 5) :=
  ⟨(c2_gdma_on_step busC2 0x01 (by decide) (by decide) (by decide) (by decide)).2.2.1,
    (c2_gdma_on_step busC2 0x01 (by decide) (by decide) (by decide)
      (by decide)).2.2.2.2 5 (by decide)⟩

/-- The OAM DMA stepper touches only the PPU object attribute memory and the
tick counter: timer, APU, speed flag, DMA base, interrupt flag, cartridge and
model are preserved. -/
theorem step_oam_dma_preserve : ∀ (m : Nat) (b : Bus),
    (b.step_oam_dma m).timer = b.timer ∧
      (b.step_oam_dma m).apu = b.apu ∧
      (b.step_oam_dma m).double_speed = b.double_speed ∧
      (b.step_oam_dma m).dma_start = b.dma_start ∧
      (b.step_oam_dma m).interrupt_flag = b.interrupt_flag ∧
      (b.step_oam_dma m).cartridge = b.cartridge ∧
      (b.step_oam_dma m).model = b.model := by
  intro m
  induction m with
  | zero => intro b; exact ⟨rfl, rfl, rfl, rfl, rfl, rfl, rfl⟩
  | succ m ih =>
    intro b
    simp only [Bus.step_oam_dma]
    split
    · exact ⟨(ih _).1, (ih _).2.1, (ih _).2.2.1, (ih _).2.2.2.1,
        (ih _).2.2.2.2.1, (ih _).2.2.2.2.2.1, (ih _).2.2.2.2.2.2⟩
    · exact ⟨rfl, rfl, rfl, rfl, rfl, rfl, rfl⟩

/-- Requesting an interrupt only ors a bit into IF. -/
theorem request_interrupt_preserve (b : Bus) (i : Interrupt) :
    (b.request_interrupt i).timer = b.timer ∧
      (b.request_interrupt i).apu = b.apu ∧
      (b.request_interrupt i).double_speed = b.double_speed ∧
      (b.request_interrupt i).ppu = b.ppu ∧
      (b.request_interrupt i).cartridge = b.cartridge ∧
      (b.request_interrupt i).model = b.model := by
  cases i <;> exact ⟨rfl, rfl, rfl, rfl, rfl, rfl⟩

/-- Claim C9: during partial_step the APU frame sequencer advances exactly
one phase when the recorded DIV value shows a falling edge of bit 4 (single
speed) or bit 5 (double speed) across the timer step, and is untouched in
every other case. -/
theorem c9_frame_sequencer_edge (b : Bus) (t : Nat) :
    (b.partial_step t).apu.fs_steps =
      b.apu.fs_steps +
        (if b.double_speed = true then
          (if b.timer.read_div &&& 0x20 ≠ 0 ∧ ((b.timer.step t).1).read_div &&& 0x20 = 0
            then 1 else 0)
        else
          (if b.timer.read_div &&& 0x10 ≠ 0 ∧ ((b.timer.step t).1).read_div &&& 0x10 = 0
            then 1 else 0)) := by
  obtain ⟨pt, pa, pd, _, _, _, _⟩ := step_oam_dma_preserve (t / 4) b
  simp only [Bus.partial_step, pt, pa, pd]
  cases hovf : (b.timer.step t).2 with
  | false =>
    rw [if_neg (by decide : ¬ false = true)]
    by_cases hds : b.double_speed = true
    · simp only [hds, if_true]
      by_cases hcnd : b.timer.read_div &&& 0x20 ≠ 0
          ∧ ((b.timer.step t).1).read_div &&& 0x20 = 0
      · rw [if_pos hcnd, if_pos hcnd]
        rfl
      · rw [if_neg hcnd, if_neg hcnd]
        rfl
    · have hds2 : b.double_speed = false := by
        cases hq : b.double_speed
        · rfl
        · exact absurd hq hds
      simp only [hds2]
      rw [if_neg (by decide : ¬ false = true), if_neg (by decide : ¬ false = true)]
      by_cases hcnd : b.timer.read_div &&& 0x10 ≠ 0
          ∧ ((b.timer.step t).1).read_div &&& 0x10 = 0
      · rw [if_pos hcnd, if_pos hcnd]
        rfl
      · rw [if_neg hcnd, if_neg hcnd]
        rfl
  | true =>
    rw [if_pos (rfl : true = true)]
    simp only [Bus.request_interrupt]
    by_cases hds : b.double_speed = true
    · simp only [hds, if_true]
      by_cases hcnd : b.timer.read_div &&& 0x20 ≠ 0
          ∧ ((b.timer.step t).1).read_div &&& 0x20 = 0
      · rw [if_pos hcnd, if_pos hcnd]
        rfl
      · rw [if_neg hcnd, if_neg hcnd]
        rfl
    · have hds2 : b.double_speed = false := by
        cases hq : b.double_speed
        · rfl
        · exact absurd hq hds
      simp only [hds2]
      rw [if_neg (by decide : ¬ false = true), if_neg (by decide : ¬ false = true)]
      by_cases hcnd : b.timer.read_div &&& 0x10 ≠ 0
          ∧ ((b.timer.step t).1).read_div &&& 0x10 = 0
      · rw [if_pos hcnd, if_pos hcnd]
        rfl
      · rw [if_neg hcnd, if_neg hcnd]
        rfl

/-- WRAM writes do not touch the interrupt flag. -/
theorem write_wram_iflag (b : Bus) (a v : Nat) :
    (b.write_wram a v).interrupt_flag = b.interrupt_flag := by
  unfold Bus.write_wram
  split
  · rfl
  · split <;> rfl

/-- Triggering an OAM DMA does not touch the interrupt flag. -/
theorem write_dma_iflag (b : Bus) (v : Nat) :
    (b.write_dma v).interrupt_flag = b.interrupt_flag :=
  (step_oam_dma_preserve 1 _).2.2.2.2.1

/-- Writing HDMA5 does not touch the interrupt flag. -/
theorem write_hdma5_iflag (b : Bus) (v : Nat) :
    (b.write_hdma5 v).interrupt_flag = b.interrupt_flag := by
  simp only [Bus.write_hdma5]
  split
  · split <;> rfl
  · rfl

set_option maxHeartbeats 2000000 in
/-- Any byte write preserves the always-set top three bits of IF: the only
arm that stores into IF writes 0xE0 or the byte. -/
theorem write_byte_inv (b : Bus) (a v : Nat) (h : b.interrupt_flag &&& 0xE0 = 0xE0) :
    (b.write_byte a v).interrupt_flag &&& 0xE0 = 0xE0 := by
  unfold Bus.write_byte
  by_cases h1 : a ≤ 0x7FFF
  · rw [if_pos h1]; exact h
  rw [if_neg h1]
  by_cases h2 : a ≤ 0x9FFF
  · rw [if_pos h2]; exact h
  rw [if_neg h2]
  by_cases h3 : a ≤ 0xBFFF
  · rw [if_pos h3]; exact h
  rw [if_neg h3]
  by_cases h4 : a ≤ 0xDFFF
  · rw [if_pos h4]; rw [write_wram_iflag]; exact h
  rw [if_neg h4]
  by_cases h5 : a ≤ 0xFDFF
  · rw [if_pos h5]; rw [write_wram_iflag]; exact h
  rw [if_neg h5]
  by_cases h6 : a ≤ 0xFE9F
  · rw [if_pos h6]; exact h
  rw [if_neg h6]
  by_cases h7 : a ≤ 0xFEFF
  · rw [if_pos h7]; exact h
  rw [if_neg h7]
  by_cases h8 : a = 0xFF00
  · rw [if_pos h8]; exact h
  rw [if_neg h8]
  by_cases h9 : a = 0xFF01
  · rw [if_pos h9]; exact h
  rw [if_neg h9]
  by_cases h10 : 0xFF04 ≤ a ∧ a ≤ 0xFF07
  · rw [if_pos h10]; exact h
  rw [if_neg h10]
  by_cases h11 : a = 0xFF0F
  · rw [if_pos h11]; exact write_if_E0 v
  rw [if_neg h11]
  by_cases h12 : 0xFF10 ≤ a ∧ a ≤ 0xFF26
  · rw [if_pos h12]; exact h
  rw [if_neg h12]
  by_cases h13 : 0xFF30 ≤ a ∧ a ≤ 0xFF3F
  · rw [if_pos h13]; exact h
  rw [if_neg h13]
  by_cases h14 : a = 0xFF46
  · rw [if_pos h14]; rw [write_dma_iflag]; exact h
  rw [if_neg h14]
  by_cases h15 : 0xFF40 ≤ a ∧ a ≤ 0xFF4B
  · rw [if_pos h15]; exact h
  rw [if_neg h15]
  by_cases h16 : a = 0xFF50
  · rw [if_pos h16]; exact h
  rw [if_neg h16]
  by_cases h17 : b.is_cgb = true ∧ a = 0xFF4D
  · rw [if_pos h17]; exact h
  rw [if_neg h17]
  by_cases h18 : b.is_cgb = true ∧ a = 0xFF4F
  · rw [if_pos h18]; exact h
  rw [if_neg h18]
  by_cases h19 : b.is_cgb = true ∧ a = 0xFF51
  · rw [if_pos h19]; exact h
  rw [if_neg h19]
  by_cases h20 : b.is_cgb = true ∧ a = 0xFF52
  · rw [if_pos h20]; exact h
  rw [if_neg h20]
  by_cases h21 : b.is_cgb = true ∧ a = 0xFF53
  · rw [if_pos h21]; exact h
  rw [if_neg h21]
  by_cases h22 : b.is_cgb = true ∧ a = 0xFF54
  · rw [if_pos h22]; exact h
  rw [if_neg h22]
  by_cases h23 : b.is_cgb = true ∧ a = 0xFF55
  · rw [if_pos h23]; rw [write_hdma5_iflag]; exact h
  rw [if_neg h23]
  by_cases h24 : b.is_cgb = true ∧ a = 0xFF56
  · rw [if_pos h24]; exact h
  rw [if_neg h24]
  by_cases h25 : b.is_cgb = true ∧ 0xFF68 ≤ a ∧ a ≤ 0xFF6C
  · rw [if_pos h25]; exact h
  rw [if_neg h25]
  by_cases h26 : b.is_cgb = true ∧ a = 0xFF70
  · rw [if_pos h26]; exact h
  rw [if_neg h26]
  by_cases h27 : 0xFF80 ≤ a ∧ a ≤ 0xFFFE
  · rw [if_pos h27]; exact h
  rw [if_neg h27]
  by_cases h28 : a = 0xFFFF
  · rw [if_pos h28]; exact h
  rw [if_neg h28]
  exact h

/-- Requesting any interrupt preserves the top three bits of IF. -/
theorem request_interrupt_inv (b : Bus) (i : Interrupt)
    (h : b.interrupt_flag &&& 0xE0 = 0xE0) :
    (b.request_interrupt i).interrupt_flag &&& 0xE0 = 0xE0 := by
  cases i <;> exact and_E0_or_keep _ _ h

/-- The partial tick preserves the top three bits of IF. -/
theorem partial_step_inv (b : Bus) (t : Nat) (h : b.interrupt_flag &&& 0xE0 = 0xE0) :
    (b.partial_step t).interrupt_flag &&& 0xE0 = 0xE0 := by
  have hp := (step_oam_dma_preserve (t / 4) b).2.2.2.2.1
  simp only [Bus.partial_step]
  split_ifs <;> first
    | (show ((b.step_oam_dma (t / 4)).interrupt_flag ||| (1 <<< 2)) &&& 0xE0 = 0xE0
       exact and_E0_or_keep _ _ (by rw [hp]; exact h))
    | (show (b.step_oam_dma (t / 4)).interrupt_flag &&& 0xE0 = 0xE0
       rw [hp]
       exact h)

/-- A block transfer does not touch the interrupt flag. -/
theorem transfer_block_iflag (b : Bus) :
    (b.transfer_block_to_vram).1.interrupt_flag = b.interrupt_flag :=
  (copy_vram_preserve (b.hdma_source_start + b.hdma_bytes)
    (b.hdma_dest_start + b.hdma_bytes) 16 b).2.2.2.2.2.2.2.1

/-- The general-purpose DMA loop does not touch the interrupt flag. -/
theorem gdma_loop_iflag : ∀ (k : Nat) (acc : Bus × Nat),
    (Bus.gdma_loop k acc).1.interrupt_flag = acc.1.interrupt_flag := by
  intro k
  induction k with
  | zero => intro acc; rfl
  | succ k ih =>
    intro acc
    show (Bus.gdma_loop k ((acc.1.transfer_block_to_vram).1, _)).1.interrupt_flag = _
    rw [ih, transfer_block_iflag]

/-- An HBlank-paced HDMA step does not touch the interrupt flag. -/
theorem step_vram_hdma_iflag (b : Bus) :
    (b.step_vram_hdma).1.interrupt_flag = b.interrupt_flag := by
  simp only [Bus.step_vram_hdma]
  split
  · split
    · show (b.transfer_block_to_vram).1.interrupt_flag = _
      rw [transfer_block_iflag]
    · show (b.transfer_block_to_vram).1.interrupt_flag = _
      rw [transfer_block_iflag]
  · rfl

/-- Draining the HDMA engine does not touch the interrupt flag. -/
theorem step_vram_dma_iflag (b : Bus) :
    (b.step_vram_dma).1.interrupt_flag = b.interrupt_flag := by
  unfold Bus.step_vram_dma
  split
  · split
    · show ((Bus.gdma_loop b.hdma_transfer_blocks (b, 0)).1).interrupt_flag = _
      rw [gdma_loop_iflag]
    · exact step_vram_hdma_iflag b
    · rfl
  · rfl

/-- The post-instruction tick preserves the top three bits of IF. -/
theorem bus_step_inv (b : Bus) (t : Nat) (h : b.interrupt_flag &&& 0xE0 = 0xE0) :
    (b.step t).interrupt_flag &&& 0xE0 = 0xE0 := by
  have base : (b.step_vram_dma).1.interrupt_flag &&& 0xE0 = 0xE0 := by
    rw [step_vram_dma_iflag]
    exact h
  simp only [Bus.step]
  split_ifs <;> first
    | exact base
    | exact and_E0_or_keep _ _ base
    | exact and_E0_or_keep _ _ (and_E0_or_keep _ _ base)
    | exact and_E0_or_keep _ _ (and_E0_or_keep _ _ (and_E0_or_keep _ _ base))

/-- Claim C4: starting from a freshly constructed bus, after any sequence of
reads, writes (including arbitrary bytes to 0xFF0F), interrupt requests, and
partial or post ticks, a read of 0xFF0F always has the top three bits set. -/
theorem c4_if_upper_bits (cart : Cartridge) (model : GBModel) (ops : List BusOp) :
    ((Bus.new cart model).apply_ops ops).read_byte 0xFF0F &&& 0xE0 = 0xE0 := by
  rw [read_byte_FF0F]
  have hgen : ∀ (l : List BusOp) (b : Bus), b.interrupt_flag &&& 0xE0 = 0xE0 →
      (b.apply_ops l).interrupt_flag &&& 0xE0 = 0xE0 := by
    intro l
    induction l with
    | nil => intro b h; exact h
    | cons op rest ih =>
      intro b h
      refine ih _ ?_
      cases op with
      | readOp a => exact h
      | writeOp a v => exact write_byte_inv b a v h
      | reqInt i => exact request_interrupt_inv b i h
      | partialTick t => exact partial_step_inv b t h
      | postTick t => exact bus_step_inv b t h
  exact hgen ops (Bus.new cart model) (show (0xE0 : Nat) &&& 0xE0 = 0xE0 by decide)

/-- Or after a left shift by 8 of an index below 256 is plain addition. -/
theorem shl8_lor_add (N i : Nat) (h : i < 256) : (N <<< 8) ||| i = (N <<< 8) + i := by
  rw [shl8_lor N i h, Nat.shiftLeft_eq]
  norm_num
  omega

set_option maxHeartbeats 2000000 in
/-- The OAM DMA run, for a source page that does not overlap OAM: the tick
counter saturates at 160, reads outside OAM are unchanged, OAM outside the
newly copied window is unchanged, and every index copied during the run holds
the byte the dispatcher reads at dma_start or index. -/
theorem oam_run (start : Nat)
    (hs : ∀ i, i < 160 → ((start ||| i) < 0xFE00 ∨ 0xFE9F < (start ||| i))) :
    ∀ (m : Nat) (s : Bus), s.dma_start = start → s.dma_ticks ≤ 160 →
      ((s.step_oam_dma m).dma_ticks = min 160 (s.dma_ticks + m) ∧
        (∀ a, (a < 0xFE00 ∨ 0xFE9F < a) →
          (s.step_oam_dma m).read_byte a = s.read_byte a) ∧
        (∀ x, (x < 0xFE00 + s.dma_ticks ∨ 0xFE00 + (s.step_oam_dma m).dma_ticks ≤ x) →
          (s.step_oam_dma m).ppu.oam x = s.ppu.oam x) ∧
        (∀ i, s.dma_ticks ≤ i → i < (s.step_oam_dma m).dma_ticks →
          (s.step_oam_dma m).ppu.oam (0xFE00 + i) = s.read_byte (start ||| i))) := by
  intro m
  induction m with
  | zero =>
    intro s hstart hle
    refine ⟨by show s.dma_ticks = min 160 (s.dma_ticks + 0); omega,
      fun a _ => rfl, fun x _ => rfl, fun i hi1 hi2 => ?_⟩
    exact absurd (show i < s.dma_ticks from hi2) (by omega)
  | succ m ih =>
    intro s hstart hle
    simp only [Bus.step_oam_dma]
    split
    · rename_i hlt
      have f1 : s.oam_dma_tick.dma_ticks = s.dma_ticks + 1 := rfl
      have f2 : s.oam_dma_tick.dma_start = start := hstart
      have f3 : s.oam_dma_tick.dma_ticks ≤ 160 := by rw [f1]; omega
      obtain ⟨q1, q2, q3, q4⟩ := ih s.oam_dma_tick f2 f3
      rw [f1] at q1
      have hr : ∀ a, (a < 0xFE00 ∨ 0xFE9F < a) →
          s.oam_dma_tick.read_byte a = s.read_byte a := by
        intro a ha
        exact read_byte_oam_ticks s _ _ _ a ha
      have hfinal : (Bus.step_oam_dma s.oam_dma_tick m).dma_ticks
          = min 160 (s.dma_ticks + 1 + m) := q1
      refine ⟨by rw [hfinal]; omega, ?_, ?_, ?_⟩
      · intro a ha
        rw [q2 a ha, hr a ha]
      · intro x hx
        have hx2 : x < 0xFE00 + s.oam_dma_tick.dma_ticks
            ∨ 0xFE00 + (Bus.step_oam_dma s.oam_dma_tick m).dma_ticks ≤ x := by
          rw [f1, hfinal]
          rw [hfinal] at hx
          omega
        rw [q3 x hx2]
        show upd s.ppu.oam (0xFE00 ||| s.dma_ticks) _ x = s.ppu.oam x
        rw [upd, if_neg]
        rw [lorFE00 s.dma_ticks (by omega)]
        rw [hfinal] at hx
        omega
      · intro i hi1 hi2
        by_cases hieq : i = s.dma_ticks
        · have hx2 : 0xFE00 + i < 0xFE00 + s.oam_dma_tick.dma_ticks
              ∨ 0xFE00 + (Bus.step_oam_dma s.oam_dma_tick m).dma_ticks ≤ 0xFE00 + i := by
            rw [f1]
            omega
          rw [q3 (0xFE00 + i) hx2, hieq]
          show upd s.ppu.oam (0xFE00 ||| s.dma_ticks)
              (s.read_byte (s.dma_start ||| s.dma_ticks)) (0xFE00 + s.dma_ticks)
              = s.read_byte (start ||| s.dma_ticks)
          rw [upd, if_pos (by rw [lorFE00 s.dma_ticks (by omega)]), hstart]
        · have hge : s.oam_dma_tick.dma_ticks ≤ i := by rw [f1]; omega
          have hlt160 : i < 160 := by
            rw [hfinal] at hi2
            omega
          rw [q4 i hge hi2]
          exact hr (start ||| i) (hs i hlt160)
    · rename_i hge
      refine ⟨by omega, fun a _ => rfl, fun x _ => rfl, fun i hi1 hi2 => ?_⟩
      exact absurd hi2 (by omega)

set_option maxHeartbeats 2000000 in
/-- The OAM DMA run for the self-referential source page 0xFE: each tick
copies an OAM byte onto itself, so OAM and every bus read are unchanged while
the tick counter still saturates at 160. -/
theorem oam_run_self :
    ∀ (m : Nat) (s : Bus), s.dma_start = 0xFE00 → s.dma_ticks ≤ 160 →
      ((s.step_oam_dma m).dma_ticks = min 160 (s.dma_ticks + m) ∧
        (∀ x, (s.step_oam_dma m).ppu.oam x = s.ppu.oam x) ∧
        (∀ a, (s.step_oam_dma m).read_byte a = s.read_byte a)) := by
  intro m
  induction m with
  | zero =>
    intro s hstart hle
    exact ⟨by show s.dma_ticks = min 160 (s.dma_ticks + 0); omega,
      fun x => rfl, fun a => rfl⟩
  | succ m ih =>
    intro s hstart hle
    simp only [Bus.step_oam_dma]
    split
    · rename_i hlt
      have f1 : s.oam_dma_tick.dma_ticks = s.dma_ticks + 1 := rfl
      have f2 : s.oam_dma_tick.dma_start = 0xFE00 := hstart
      have f3 : s.oam_dma_tick.dma_ticks ≤ 160 := by rw [f1]; omega
      have hoam : ∀ x, s.oam_dma_tick.ppu.oam x = s.ppu.oam x := by
        intro x
        show upd s.ppu.oam (0xFE00 ||| s.dma_ticks)
            (s.read_byte (s.dma_start ||| s.dma_ticks)) x = s.ppu.oam x
        rw [upd]
        split
        · rename_i hxa
          rw [hxa, hstart, lorFE00 s.dma_ticks (by omega)]
          exact read_byte_oam s (0xFE00 + s.dma_ticks) (by omega) (by omega)
        · rfl
      have hrd : ∀ a, s.oam_dma_tick.read_byte a = s.read_byte a := by
        intro a
        by_cases hin : 0xFE00 ≤ a ∧ a ≤ 0xFE9F
        · rw [read_byte_oam _ a hin.1 hin.2, read_byte_oam s a hin.1 hin.2]
          exact hoam a
        · exact read_byte_oam_ticks s _ _ _ a (by omega)
      obtain ⟨q1, q2, q3⟩ := ih s.oam_dma_tick f2 f3
      rw [f1] at q1
      refine ⟨by rw [q1]; omega, ?_, ?_⟩
      · intro x
        rw [q2 x, hoam x]
      · intro a
        rw [q3 a, hrd a]
    · rename_i hge
      exact ⟨by omega, fun x => rfl, fun a => rfl⟩

set_option maxHeartbeats 4000000 in
/-- Claim C7: writing N to 0xFF46 latches source page N, resets the tick
counter and immediately performs one tick; each further M-cycle with the
counter below 160 copies one byte read through the full dispatcher from
dma_start or counter to OAM at 0xFE00 or counter; and after 160 M-cycles all
160 OAM bytes mirror the dispatcher reads at (N shl 8) + i with the engine
idle at counter 160. -/
theorem c7_oam_dma (b : Bus) (N : Nat) (hN : N < 256) :
    (∀ c : Bus, c.dma_ticks < 160 →
        Bus.step_oam_dma c 1
          = { c with
              ppu := c.ppu.write_oam (0xFE00 ||| c.dma_ticks)
                (c.read_byte (c.dma_start ||| c.dma_ticks)),
              dma_ticks := c.dma_ticks + 1 }) ∧
      (b.write_byte 0xFF46 N).dma_start = N <<< 8 ∧
      (b.write_byte 0xFF46 N).dma_ticks = 1 ∧
      ((b.write_byte 0xFF46 N).step_oam_dma 160).dma_ticks = 160 ∧
      (∀ i, i < 160 →
        ((b.write_byte 0xFF46 N).step_oam_dma 160).ppu.oam (0xFE00 + i)
          = (b.write_byte 0xFF46 N).read_byte ((N <<< 8) + i)) := by
  have e1 : (b.write_byte 0xFF46 N).dma_ticks = 1 := rfl
  refine ⟨?_, rfl, rfl, ?_, ?_⟩
  · intro c hc
    simp only [Bus.step_oam_dma]
    rw [if_pos hc]
    rfl
  · by_cases hfe : N = 0xFE
    · subst hfe
      obtain ⟨q1, q2, q3⟩ := oam_run_self 160 (b.write_byte 0xFF46 0xFE) rfl
        (by rw [e1]; omega)
      rw [q1, e1]
      omega
    · have hs : ∀ i, i < 160 →
          (((N <<< 8) ||| i) < 0xFE00 ∨ 0xFE9F < ((N <<< 8) ||| i)) := by
        intro i hi
        rw [shl8_lor N i (by omega)]
        omega
      obtain ⟨q1, q2, q3, q4⟩ := oam_run (N <<< 8) hs 160 (b.write_byte 0xFF46 N) rfl
        (by rw [e1]; omega)
      rw [q1, e1]
      omega
  · intro i hi
    by_cases hfe : N = 0xFE
    · subst hfe
      obtain ⟨q1, q2, q3⟩ := oam_run_self 160 (b.write_byte 0xFF46 0xFE) rfl
        (by rw [e1]; omega)
      rw [q2 (0xFE00 + i),
        (by decide : ((0xFE : Nat) <<< 8) = 0xFE00),
        read_byte_oam (b.write_byte 0xFF46 0xFE) (0xFE00 + i) (by omega) (by omega)]
    · have hs : ∀ j, j < 160 →
          (((N <<< 8) ||| j) < 0xFE00 ∨ 0xFE9F < ((N <<< 8) ||| j)) := by
        intro j hj
        rw [shl8_lor N j (by omega)]
        omega
      obtain ⟨q1, q2, q3, q4⟩ := oam_run (N <<< 8) hs 160 (b.write_byte 0xFF46 N) rfl
        (by rw [e1]; omega)
      by_cases hi0 : i = 0
      · rw [hi0]
        have h03 := q3 (0xFE00 + 0) (Or.inl (by rw [e1]; omega))
        rw [h03]
        have hb1r : (b.write_byte 0xFF46 N).read_byte ((N <<< 8) + 0)
            = Bus.read_byte { b with
                ppu := (b.ppu.write_dma N), dma_start := N <<< 8, dma_ticks := 0 }
                ((N <<< 8) + 0) := by
          have h0 := hs 0 (by omega)
          rw [Nat.or_zero] at h0
          exact read_byte_oam_ticks
            { b with ppu := (b.ppu.write_dma N), dma_start := N <<< 8, dma_ticks := 0 }
            _ _ _ ((N <<< 8) + 0) (by omega)
        have hfun : (b.write_byte 0xFF46 N).ppu.oam
            = upd ({ b with
                ppu := (b.ppu.write_dma N), dma_start := N <<< 8,
                dma_ticks := 0 } : Bus).ppu.oam (0xFE00 ||| 0)
              (Bus.read_byte { b with
                ppu := (b.ppu.write_dma N), dma_start := N <<< 8, dma_ticks := 0 }
                ((N <<< 8) ||| 0)) := rfl
        rw [hb1r, hfun]
        simp only [upd]
        rw [if_pos (by decide : (0xFE00 + 0 : Nat) = 0xFE00 ||| 0), Nat.or_zero]
        rfl
      · have hcp := q4 i (by rw [e1]; omega) (by rw [q1, e1]; omega)
        rw [hcp, shl8_lor_add N i (by omega)]

/-- Claim C7 witness: DMA from WRAM page 0xC0 after writing 0x42 to 0xC017;
after 160 M-cycles the engine is idle and OAM byte 0x17 mirrors the
dispatcher read of 0xC017. -/
theorem c7_oam_dma_witness :
    ((((Bus.new testCart GBModel.DMG).write_byte 0xC017 0x42).write_byte
          0xFF46 0xC0).step_oam_dma 160).dma_ticks = 160 ∧
      ((((Bus.new testCart GBModel.DMG).write_byte 0xC017 0x42).write_byte
            0xFF46 0xC0).step_oam_dma 160).ppu.oam (0xFE00 + 0x17)
        = (((Bus.new testCart GBModel.DMG).write_byte 0xC017 0x42).write_byte
            0xFF46 0xC0).read_byte ((0xC0 <<< 8) + 0x17) :=
  ⟨(c7_oam_dma ((Bus.new testCart GBModel.DMG).write_byte 0xC017 0x42) 0xC0
      (by decide)).2.2.2.1,
    (c7_oam_dma ((Bus.new testCart GBModel.DMG).write_byte 0xC017 0x42) 0xC0
      (by decide)).2.2.2.2 0x17 (by decide)⟩
